import Mathlib

set_option maxRecDepth 16000

/-!
Shallow embedding of the smoketest handwriting-practice application core:
the stroke accuracy scorer (`usePracticeSession.ts`), the spaced-repetition
scheduler and attempt-submission handler (`src/app/api/users/route.ts`),
the stroke-count table (`strokeCount.ts`), the learning-progression
selector (`learningProgression.ts`) and the stroke geometry analyzer
(`src/lib/strokeStorage.ts.bak`).

JavaScript numbers are modelled as exact rationals; the transcendental
parts of the geometry (square roots, `atan2`) are modelled over `ℝ`.
A JavaScript division whose result is not a finite number (`0/0 = NaN`)
is modelled by `Option ℚ` with `none` for the non-finite case.
Sources of nondeterminism (`Math.random`, the randomized comparator fed
to `Array.prototype.sort`, the Fisher-Yates shuffle) are passed in
explicitly as oracle parameters.
-/

namespace Smoketest

/-- A captured pointer sample.  `pressure` is optional in the source type
(`Point`), so it is an `Option`. -/
structure Point where
  x : ℚ
  y : ℚ
  pressure : Option ℚ := none
  timestamp : Option ℚ := none
deriving DecidableEq, Repr

/-- One continuous drawn stroke (`UserStroke`): a path of points plus the
capture timestamps in milliseconds. -/
structure Stroke where
  path : List Point
  startTime : ℚ
  endTime : ℚ
deriving DecidableEq, Repr

/-- The character reference data used by the scorer; only the fields the
embedded functions consume are retained from the source `Character` type. -/
structure Character where
  traditional : String
  strokeCount : ℕ
deriving DecidableEq, Repr

/-! ## Accuracy scorer (`usePracticeSession.ts`, `calculateStrokeAccuracy`) -/

/-- The stroke-count penalty term of `calculateStrokeAccuracy`:
`Math.max(0, 100 - Math.abs(expectedStrokes - actualStrokes) * 20)`. -/
def countPenalty (expectedStrokes actualStrokes : ℕ) : ℚ :=
  max 0 (100 - |(expectedStrokes : ℚ) - (actualStrokes : ℚ)| * 20)

/-- The per-stroke quality term of `calculateStrokeAccuracy`:
`Math.min(100, (length * 2) + Math.min(50, duration / 50))` where `length`
is the number of points on the path and `duration = endTime - startTime`. -/
def strokeQuality (s : Stroke) : ℚ :=
  min 100 ((s.path.length : ℚ) * 2 + min 50 ((s.endTime - s.startTime) / 50))

/-- `calculateStrokeAccuracy(userStrokes, character)`: 0 for an empty
stroke list, otherwise the clamped blend
`0.6 * countPenalty + 0.4 * averageQuality`. -/
def calculateStrokeAccuracy (userStrokes : List Stroke) (character : Character) : ℚ :=
  if userStrokes = [] then 0
  else
    let accuracy := countPenalty character.strokeCount userStrokes.length
    let avgStrokeQuality := (userStrokes.map strokeQuality).sum / (userStrokes.length : ℚ)
    max 0 (min 100 (accuracy * (6/10) + avgStrokeQuality * (4/10)))

/-! ## Spaced-repetition scheduler (`src/app/api/users/route.ts`) -/

/-- `calculateNextReviewDelay(accuracy, streak)` in milliseconds. -/
def calculateNextReviewDelay (accuracy : ℚ) (streak : ℕ) : ℚ :=
  let baseDelay : ℚ := 1000 * 60 * 60 * 24
  if accuracy < 60 then baseDelay * (1/2)
  else if accuracy < 80 then baseDelay * 1
  else baseDelay * min ((2 : ℚ) ^ streak) 30

/-- `calculateMasteryLevel(averageAccuracy, streak)`: the 0-5 mastery
lookup, evaluated top-down. -/
def calculateMasteryLevel (averageAccuracy : ℚ) (streak : ℕ) : ℕ :=
  if averageAccuracy ≥ 95 ∧ streak ≥ 5 then 5
  else if averageAccuracy ≥ 90 ∧ streak ≥ 4 then 4
  else if averageAccuracy ≥ 85 ∧ streak ≥ 3 then 3
  else if averageAccuracy ≥ 75 ∧ streak ≥ 2 then 2
  else if averageAccuracy ≥ 60 ∧ streak ≥ 1 then 1
  else 0

/-- The persisted per-(user, character) progress record (`UserProgress`). -/
structure UserProgress where
  accuracyHistory : List ℚ
  totalAttempts : ℕ
  streak : ℕ
  lastPracticed : ℚ
  nextReview : ℚ
  masteryLevel : ℕ
deriving DecidableEq, Repr

/-- `array.slice(-n)`: the last `n` elements of a list. -/
def takeLast (n : ℕ) (l : List ℚ) : List ℚ := l.drop (l.length - n)

/-- `updateUserProgress(userId, characterId, accuracy)`, as a pure state
transition on the optional existing progress record.  The two calls to the
wall clock inside one update are modelled as the single instant `now`. -/
def updateUserProgress (existing : Option UserProgress) (accuracy : ℚ) (now : ℚ) :
    UserProgress :=
  match existing with
  | some p =>
      let newAccuracyHistory := takeLast 10 (p.accuracyHistory ++ [accuracy])
      let averageAccuracy := newAccuracyHistory.sum / (newAccuracyHistory.length : ℚ)
      let newStreak := if accuracy ≥ 80 then p.streak + 1 else 0
      { accuracyHistory := newAccuracyHistory
        totalAttempts := p.totalAttempts + 1
        streak := newStreak
        lastPracticed := now
        nextReview := now + calculateNextReviewDelay averageAccuracy newStreak
        masteryLevel := calculateMasteryLevel averageAccuracy newStreak }
  | none =>
      let streak := if accuracy ≥ 80 then 1 else 0
      { accuracyHistory := [accuracy]
        totalAttempts := 1
        streak := streak
        lastPracticed := now
        nextReview := now + calculateNextReviewDelay accuracy streak
        masteryLevel := calculateMasteryLevel accuracy streak }

/-- Run a sequence of attempts through `updateUserProgress`, starting from
no progress record. -/
def runAttempts (accuracies : List ℚ) (now : ℚ) : Option UserProgress :=
  accuracies.foldl (fun st a => some (updateUserProgress st a now)) none

/-! ## Stroke-count estimation (`strokeCount.ts`) -/

/-- The `STROKE_COUNTS` object literal, in source order.  The source
object has some duplicated keys, every one of which repeats the same
value, so first-match lookup agrees with JavaScript's last-write-wins
object semantics. -/
def STROKE_COUNTS : List (String × ℕ) := [
  ("一", 1), ("二", 2), ("三", 3), ("四", 5), ("五", 4), ("六", 4), ("七", 2), ("八", 2),
  ("九", 2), ("十", 2), ("的", 8), ("了", 2), ("在", 6), ("是", 9), ("我", 7), ("有", 6),
  ("和", 8), ("就", 12), ("不", 4), ("人", 2), ("都", 11), ("一", 1), ("個", 10), ("來", 8),
  ("他", 5), ("時", 10), ("會", 13), ("地", 6), ("得", 11), ("對", 14), ("出", 5), ("就", 12),
  ("年", 6), ("得", 11), ("要", 9), ("下", 3), ("過", 12), ("主", 5), ("從", 11), ("多", 6),
  ("佢", 7), ("咁", 9), ("嘅", 14), ("係", 9), ("喺", 12), ("啲", 11), ("嗰", 13), ("呢", 8),
  ("咗", 9), ("嘞", 14), ("咩", 9), ("乜", 4), ("點", 17), ("邊", 18), ("幾", 12), ("咪", 9),
  ("啦", 11), ("嚟", 17), ("去", 5), ("返", 11), ("食", 9), ("飲", 12), ("睇", 13), ("聽", 22),
  ("講", 17), ("做", 11), ("人", 2), ("男", 7), ("女", 3), ("子", 3), ("父", 4), ("母", 5),
  ("兄", 5), ("弟", 7), ("姐", 8), ("妹", 8), ("爸", 8), ("媽", 13), ("哥", 10), ("公", 4),
  ("婆", 11), ("爺", 13), ("嫲", 13), ("大", 3), ("小", 3), ("好", 6), ("壞", 16), ("新", 13),
  ("舊", 18), ("快", 7), ("慢", 14), ("高", 10), ("矮", 13), ("長", 8), ("短", 12), ("遠", 13),
  ("近", 7), ("多", 6), ("少", 4), ("早", 6), ("遲", 15), ("前", 9), ("後", 9), ("紅", 9),
  ("橙", 16), ("黃", 12), ("綠", 14), ("藍", 18), ("紫", 12), ("黑", 12), ("白", 5), ("灰", 6),
  ("棕", 12), ("頭", 16), ("面", 9), ("眼", 11), ("耳", 6), ("鼻", 14), ("口", 3), ("牙", 4),
  ("舌", 6), ("手", 4), ("指", 9), ("腳", 13), ("腿", 13), ("心", 4), ("肚", 7), ("背", 9),
  ("肩", 8), ("頸", 14), ("腰", 13), ("日", 4), ("月", 4), ("年", 6), ("時", 10), ("分", 4),
  ("秒", 9), ("今", 4), ("昨", 9), ("明", 8), ("後", 9), ("早", 6), ("午", 4), ("晚", 11),
  ("夜", 8), ("春", 9), ("夏", 10), ("秋", 9), ("冬", 5), ("星", 9), ("期", 12), ("家", 10),
  ("屋", 9), ("房", 8), ("門", 8), ("窗", 12), ("床", 7), ("桌", 10), ("椅", 12), ("廁", 7),
  ("廚", 12), ("街", 12), ("路", 13), ("車", 7), ("站", 10), ("店", 8), ("場", 12), ("園", 13),
  ("校", 10), ("院", 14), ("所", 8), ("飯", 12), ("麵", 20), ("粥", 12), ("湯", 13), ("菜", 11),
  ("肉", 6), ("魚", 11), ("蛋", 11), ("奶", 5), ("茶", 9), ("咖", 8), ("啡", 11), ("水", 4),
  ("酒", 10), ("糖", 16), ("鹽", 24), ("油", 8), ("醋", 15), ("醬", 17), ("辣", 14), ("天", 4),
  ("氣", 10), ("雲", 12), ("雨", 8), ("雪", 11), ("風", 9), ("雷", 13), ("電", 13), ("熱", 15),
  ("暖", 13), ("涼", 11), ("冷", 7), ("凍", 10), ("乾", 11), ("濕", 17), ("晴", 12), ("陰", 11),
  ("霧", 19), ("車", 7), ("巴", 4), ("士", 3), ("船", 11), ("飛", 9), ("機", 16), ("火", 4),
  ("電", 13), ("單", 12), ("車", 7), ("百", 6), ("千", 3), ("萬", 13), ("億", 15), ("零", 13),
  ("半", 5), ("雙", 18), ("對", 14), ("打", 5), ("個", 10), ("嘅", 14), ("咗", 9), ("緊", 14),
  ("住", 7), ("咁", 9), ("都", 11), ("仲", 6), ("已", 3), ("經", 13), ("先", 6), ("再", 6),
  ("又", 2), ("同", 6), ("或", 8), ("者", 8), ("但", 7), ("係", 9), ("如", 6), ("果", 8),
  ("因", 6), ("為", 9), ("所", 8), ("以", 4), ("雖", 17), ("然", 12), ("而", 6), ("且", 5),
  ("除", 10), ("非", 8), ("只", 5), ("行", 6), ("走", 7), ("跑", 12), ("跳", 13), ("企", 6),
  ("坐", 7), ("瞓", 16), ("起", 10), ("落", 12), ("上", 3), ("入", 2), ("出", 5), ("開", 12),
  ("關", 19), ("着", 11), ("除", 10), ("穿", 9), ("洗", 9), ("刷", 8), ("擦", 17), ("掃", 11),
  ("拖", 8), ("抹", 8), ("煮", 12), ("炒", 8), ("蒸", 13), ("煎", 13), ("炸", 9), ("烤", 10),
  ("燒", 16), ("開", 12), ("心", 4), ("高", 10), ("興", 16), ("快", 7), ("樂", 15), ("喜", 12),
  ("歡", 22), ("愛", 13), ("恨", 9), ("怕", 8), ("驚", 22), ("怒", 9), ("氣", 10), ("傷", 13),
  ("心", 4), ("擔", 16), ("心", 4), ("放", 8), ("心", 4), ("東", 8), ("南", 9), ("西", 6),
  ("北", 5), ("上", 3), ("下", 3), ("左", 5), ("右", 5), ("前", 9), ("後", 9), ("中", 4),
  ("內", 4), ("外", 5), ("裏", 12), ("邊", 18), ("旁", 10), ("隔", 12), ("離", 19), ("近", 7),
  ("遠", 13), ("電", 13), ("話", 13), ("腦", 13), ("網", 14), ("機", 16), ("器", 16), ("視", 11),
  ("聽", 22), ("音", 9), ("樂", 15), ("片", 4), ("戲", 17), ("遊", 12), ("戲", 17), ("書", 10),
  ("報", 12), ("紙", 10), ("筆", 12), ("字", 6), ("畫", 12)]

/-- `getStrokeCount(character)`.  The `Math.random()` value consumed by
the fallback path is passed in as `rand`. -/
def getStrokeCount (character : String) (rand : ℚ) : ℕ :=
  let mapped := (STROKE_COUNTS.lookup character).getD 0
  if mapped ≠ 0 then mapped
  else
    match character.data with
    | [] => Nat.floor (rand * 20) + 5
    | c :: _ =>
      let code := c.toNat
      if 0x4E00 ≤ code ∧ code ≤ 0x4FFF then Nat.floor (rand * 8) + 3
      else if 0x5000 ≤ code ∧ code ≤ 0x62FF then Nat.floor (rand * 12) + 6
      else if 0x6300 ≤ code ∧ code ≤ 0x77FF then Nat.floor (rand * 15) + 8
      else Nat.floor (rand * 20) + 5

/-- `calculateDifficulty(strokeCount)`: buckets a stroke count into a
1-5 difficulty. -/
def calculateDifficulty (strokeCount : ℕ) : ℕ :=
  if strokeCount ≤ 3 then 1
  else if strokeCount ≤ 6 then 2
  else if strokeCount ≤ 10 then 3
  else if strokeCount ≤ 15 then 4
  else 5

/-! ## Learning progression (`learningProgression.ts`) -/

/-- The 310-entry frequency-ordered character list, in source order
(later slices contain some repeated characters, as in the source). -/
def FREQUENCY_ORDERED_CHARACTERS : List String := [
  "一", "二", "三", "我", "你", "係", "有", "個", "嘅", "喺",
  "四", "五", "六", "七", "八", "九", "十", "人", "大", "小",
  "好", "唔", "去", "嚟", "食", "飲", "屋", "企", "家", "佢",
  "咁", "都", "會", "得", "要", "做", "睇", "聽", "講", "時",
  "日", "月", "年", "今", "明", "早", "夜", "上", "下", "中",
  "前", "後", "左", "右", "裏", "度", "邊", "咩", "點", "幾",
  "百", "千", "萬", "零", "先", "再", "已", "經", "仲", "同",
  "或", "但", "因", "為", "所", "以", "如", "果", "雖", "然",
  "而", "且", "只", "都", "又", "也", "就", "已", "還", "更",
  "最", "很", "太", "非", "常", "真", "假", "新", "舊", "快",
  "慢", "高", "矮", "長", "短", "遠", "近", "多", "少", "開",
  "心", "手", "腳", "頭", "面", "眼", "口", "耳", "鼻", "髮",
  "身", "體", "肚", "背", "肩", "指", "牙", "舌", "頸", "腰",
  "紅", "藍", "綠", "黃", "黑", "白", "灰", "橙", "紫", "棕",
  "天", "氣", "雨", "雪", "風", "熱", "冷", "暖", "涼", "乾",
  "濕", "晴", "陰", "雲", "電", "雷", "霧", "水", "火", "土",
  "金", "木", "石", "草", "花", "樹", "葉", "果", "菜", "米",
  "飯", "麵", "粥", "湯", "肉", "魚", "蛋", "奶", "茶", "咖",
  "啡", "糖", "鹽", "油", "醋", "辣", "甜", "酸", "苦", "淡",
  "車", "船", "飛", "機", "巴", "士", "火", "電", "單", "的",
  "街", "路", "橋", "站", "場", "店", "市", "鋪", "廠", "園",
  "學", "校", "生", "老", "師", "同", "學", "朋", "友", "鄰",
  "居", "客", "人", "主", "人", "老", "闆", "員", "工", "醫",
  "生", "護", "士", "司", "機", "廚", "師", "服", "務", "員",
  "警", "察", "消", "防", "員", "郵", "差", "清", "潔", "工",
  "書", "報", "紙", "雜", "誌", "新", "聞", "電", "視", "收",
  "音", "機", "電", "話", "手", "機", "電", "腦", "網", "路",
  "遊", "戲", "電", "影", "音", "樂", "歌", "舞", "蹈", "畫",
  "畫", "照", "片", "相", "機", "錄", "影", "帶", "光", "碟",
  "銀", "行", "錢", "幣", "卡", "信", "用", "卡", "現", "金",
  "買", "賣", "價", "錢", "便", "宜", "貴", "平", "打", "折"]

/-- One learning level: a name, its character count and difficulty cap,
and its frequency-ordered character slice. -/
structure LearningLevel where
  level : ℕ
  name : String
  characterCount : ℕ
  maxDifficulty : ℕ
  characters : List String
deriving DecidableEq

/-- The five `LEARNING_LEVELS`, with their prefix slices of the
frequency list. -/
def LEARNING_LEVELS : List LearningLevel := [
  ⟨1, "Foundation", 10, 2, FREQUENCY_ORDERED_CHARACTERS.take 10⟩,
  ⟨2, "Core Vocabulary", 50, 3, FREQUENCY_ORDERED_CHARACTERS.take 50⟩,
  ⟨3, "Practical Communication", 100, 4, FREQUENCY_ORDERED_CHARACTERS.take 100⟩,
  ⟨4, "Advanced Daily Life", 200, 4, FREQUENCY_ORDERED_CHARACTERS.take 200⟩,
  ⟨5, "Cultural Fluency", 300, 5, FREQUENCY_ORDERED_CHARACTERS.take 300⟩]

/-- The `ProgressionConfig` state of `LearningProgressionSystem`.  The
completed-character set is modelled as a list queried by membership. -/
structure ProgressionConfig where
  currentLevel : ℕ
  completedCharacters : List String
  masteryThreshold : ℚ
  advancementThreshold : ℚ
deriving DecidableEq

/-- The constructor defaults: level 1, nothing completed, thresholds
85 and 80. -/
def defaultConfig : ProgressionConfig := ⟨1, [], 85, 80⟩

/-- `LEARNING_LEVELS[0]`, the fallback of `getCurrentLevel`. -/
def firstLevel : LearningLevel :=
  ⟨1, "Foundation", 10, 2, FREQUENCY_ORDERED_CHARACTERS.take 10⟩

/-- `getCurrentLevel()`: `LEARNING_LEVELS[currentLevel - 1] ||
LEARNING_LEVELS[0]` (an out-of-range index yields the fallback). -/
def getCurrentLevel (cfg : ProgressionConfig) : LearningLevel :=
  match cfg.currentLevel with
  | 0 => firstLevel
  | n + 1 => (LEARNING_LEVELS.get? n).getD firstLevel

/-- `canAdvanceLevel()`: the percentage of the level's characters already
completed reaches the advancement threshold. -/
def canAdvanceLevel (cfg : ProgressionConfig) : Prop :=
  cfg.advancementThreshold ≤
    ((((getCurrentLevel cfg).characters.filter
        (fun c => cfg.completedCharacters.contains c)).length : ℚ) /
      ((getCurrentLevel cfg).characterCount : ℚ)) * 100

instance (cfg : ProgressionConfig) : Decidable (canAdvanceLevel cfg) := by
  unfold canAdvanceLevel
  infer_instance

/-- `advanceLevel()`: increments the level when advancement is allowed
and a next level exists; reports whether it advanced. -/
def advanceLevel (cfg : ProgressionConfig) : ProgressionConfig × Bool :=
  if canAdvanceLevel cfg ∧ cfg.currentLevel < LEARNING_LEVELS.length then
    ({ cfg with currentLevel := cfg.currentLevel + 1 }, true)
  else (cfg, false)

/-- The nondeterminism consumed by the selector: the `Math.random()`
value used per stroke-count lookup, the outcome of sorting a difficulty
bucket with the randomized comparator, and the outcome of the
Fisher-Yates shuffle.  Theorems constrain the latter two to produce
permutations of their input. -/
structure Oracles where
  strokeRand : String → ℚ
  sortJitter : List String → List String
  shuffle : List String → List String

/-- A trivial oracle choice: zero randomness, identity sort and shuffle
outcomes. -/
def idOracles : Oracles := ⟨fun _ => 0, fun l => l, fun l => l⟩

/-- The difficulty assigned to a character during bucketing:
`calculateDifficulty(getStrokeCount(char))`. -/
def difficultyOf (o : Oracles) (c : String) : ℕ :=
  calculateDifficulty (getStrokeCount c (o.strokeRand c))

/-- Append a character to its difficulty's bucket, preserving the
insertion order of both keys and bucket contents (JS `Map` semantics). -/
def addToGroup (d : ℕ) (c : String) :
    List (ℕ × List String) → List (ℕ × List String)
  | [] => [(d, [c])]
  | (k, b) :: rest =>
      if k = d then (k, b ++ [c]) :: rest else (k, b) :: addToGroup d c rest

/-- The `charactersByDifficulty` map, as an insertion-ordered
association list. -/
def groupByDifficulty (o : Oracles) (chars : List String) :
    List (ℕ × List String) :=
  chars.foldl (fun acc c => addToGroup (difficultyOf o c) c acc) []

/-- Bucket lookup (`charactersByDifficulty.get(difficulty)`). -/
def bucketOf (groups : List (ℕ × List String)) (d : ℕ) : List String :=
  (groups.lookup d).getD []

/-- One difficulty's contribution to the selection:
`sortedChars.slice(0, charsToTake)` where `sortedChars` is the jittered
bucket and `charsToTake = Math.min(sortedChars.length,
Math.max(1, Math.floor(count / difficulties.length)))`. -/
def takeFromBucket (o : Oracles) (count : ℕ) (groups : List (ℕ × List String))
    (D d : ℕ) : List String :=
  (o.sortJitter (bucketOf groups d)).take
    (min (o.sortJitter (bucketOf groups d)).length (max 1 (count / D)))

/-- The per-difficulty selection loop of `getNextCharactersForPractice`,
including the early break once `count` characters are selected. -/
def selectLoop (o : Oracles) (count : ℕ) (groups : List (ℕ × List String))
    (D : ℕ) : List ℕ → List String → List String
  | [], selected => selected
  | d :: ds, selected =>
      if count ≤ (selected ++ takeFromBucket o count groups D d).length then
        selected ++ takeFromBucket o count groups D d
      else selectLoop o count groups D ds (selected ++ takeFromBucket o count groups D d)

/-- `currentLevel.characters.indexOf(c)`, the frequency key of the
fill-phase sort. -/
def levelIndexOf (lvl : LearningLevel) (c : String) : ℕ :=
  lvl.characters.indexOf c

/-- The body of `getNextCharactersForPractice` on a non-empty available
list: bucket by difficulty, walk the ascending difficulties taking a
jittered prefix of each bucket, top up from the remaining characters in
frequency order, and truncate to `count`. -/
def selectFromAvailable (o : Oracles) (count : ℕ) (lvl : LearningLevel)
    (available : List String) : List String :=
  let groups := groupByDifficulty o available
  let difficulties := (groups.map Prod.fst).insertionSort (· ≤ ·)
  let selected := selectLoop o count groups difficulties.length difficulties []
  let selected2 :=
    if selected.length < count then
      let remaining :=
        (available.filter (fun c => !(selected.contains c))).insertionSort
          (fun a b => levelIndexOf lvl a ≤ levelIndexOf lvl b)
      selected ++ remaining.take (count - selected.length)
    else selected
  selected2.take count

/-- `getNextCharactersForPractice(count)`, with explicit fuel for the
`handleLevelCompletion` recursion (the source recurses unboundedly; at
level 5 with every character completed it never terminates, which the
model reports as `none`).  Returns the batch and the possibly-advanced
config. -/
def getNextCharactersForPractice (o : Oracles) :
    ℕ → ProgressionConfig → ℕ → Option (List String × ProgressionConfig)
  | 0, _, _ => none
  | fuel + 1, cfg, count =>
      let available := (getCurrentLevel cfg).characters.filter
        (fun c => !(cfg.completedCharacters.contains c))
      if available.isEmpty then
        if canAdvanceLevel cfg then
          getNextCharactersForPractice o fuel (advanceLevel cfg).1 10
        else
          some ((o.shuffle (getCurrentLevel cfg).characters).take 10, cfg)
      else
        some (selectFromAvailable o count (getCurrentLevel cfg) available, cfg)

/-! ## Attempt-submission handler (`src/app/api/users/route.ts`, `POST`) -/

/-- The JSON body of an attempt-submission request; a `none` field is one
absent from the body (destructured to `undefined`). -/
structure AttemptRequest where
  username : Option String
  sessionUuid : Option String
  exerciseId : Option String
  characterId : Option String
  accuracy : Option ℚ
  timeSpent : Option ℚ := none
  strokeVectors : Option (List Stroke) := none
  canvasSnapshot : Option String := none
  difficultyLevel : Option ℕ := none
  exerciseType : Option String := none
deriving DecidableEq

/-- JavaScript truthiness of an optional string: `undefined` and the empty
string are falsy, every other string is truthy. -/
def jsTruthy : Option String → Bool
  | none => false
  | some s => !(s == "")

/-- The persisted `practiceAttempt` row created by the handler. -/
structure PracticeAttempt where
  username : String
  sessionUuid : String
  exerciseId : String
  characterId : String
  accuracy : ℚ
  timeSpent : ℚ
  strokeCount : ℕ
  strokeVectors : List Stroke
  difficultyLevel : ℕ
  exerciseType : String
  completed : Bool
deriving DecidableEq

/-- The database state touched by the handler: users and sessions are
find-or-create keyed by `username` / `sessionUuid`; progress is keyed by
`(username, characterId)`. -/
structure Db where
  users : List String
  sessions : List String
  attempts : List PracticeAttempt
  progress : List ((String × String) × UserProgress)
deriving DecidableEq

/-- Insert-or-replace into the progress table. -/
def setProgress (tbl : List ((String × String) × UserProgress))
    (key : String × String) (v : UserProgress) :
    List ((String × String) × UserProgress) :=
  if tbl.any (fun e => e.1 == key) then
    tbl.map (fun e => if e.1 == key then (key, v) else e)
  else tbl ++ [(key, v)]

/-- The handler's response: a 400 validation error or a success carrying
the created attempt. -/
inductive PostResponse where
  | badRequest (error : String)
  | ok (attempt : PracticeAttempt)
deriving DecidableEq

/-- The `POST` attempt-submission handler, as a pure state transition on
the database.  Validation is the source's truthiness check
`!username || !sessionUuid || !exerciseId || !characterId ||
accuracy === undefined`; on success the user and session are
found-or-created, the attempt row is appended, and the user progress is
updated. -/
def handlePost (db : Db) (req : AttemptRequest) (now : ℚ) : PostResponse × Db :=
  if !(jsTruthy req.username) || !(jsTruthy req.sessionUuid) || !(jsTruthy req.exerciseId)
      || !(jsTruthy req.characterId) || req.accuracy == none then
    (.badRequest "Missing required fields: username, sessionUuid, exerciseId, characterId, accuracy",
     db)
  else
    let username := req.username.getD ""
    let sessionUuid := req.sessionUuid.getD ""
    let exerciseId := req.exerciseId.getD ""
    let characterId := req.characterId.getD ""
    let accuracy := req.accuracy.getD 0
    let strokeVectors := req.strokeVectors.getD []
    let attempt : PracticeAttempt :=
      { username := username
        sessionUuid := sessionUuid
        exerciseId := exerciseId
        characterId := characterId
        accuracy := accuracy
        timeSpent := req.timeSpent.getD 0
        strokeCount := strokeVectors.length
        strokeVectors := strokeVectors
        difficultyLevel := req.difficultyLevel.getD 1
        exerciseType := req.exerciseType.getD "character"
        completed := true }
    let existing := (db.progress.find? (fun e => e.1 == (username, characterId))).map Prod.snd
    (.ok attempt,
     { users := if db.users.contains username then db.users else db.users ++ [username]
       sessions := if db.sessions.contains sessionUuid then db.sessions
                   else db.sessions ++ [sessionUuid]
       attempts := db.attempts ++ [attempt]
       progress := setProgress db.progress (username, characterId)
                     (updateUserProgress existing accuracy now) })

/-! ## Stroke geometry analyzer (`src/lib/strokeStorage.ts.bak`) -/

/-- `StrokeAnalyzer.calculateLength`: 0 for fewer than 2 points, else the
sum of consecutive Euclidean segment distances. -/
noncomputable def calculateLength (s : Stroke) : ℝ :=
  if s.path.length < 2 then 0
  else
    (s.path.zip s.path.tail).foldl
      (fun acc pq =>
        acc + Real.sqrt (((pq.2.x - pq.1.x : ℚ) : ℝ) ^ 2 + ((pq.2.y - pq.1.y : ℚ) : ℝ) ^ 2))
      0

/-- `StrokeAnalyzer.calculateDuration`: `endTime - startTime`. -/
def calculateDuration (s : Stroke) : ℚ := s.endTime - s.startTime

/-- `StrokeAnalyzer.calculateSpeed`: `length / duration` when the duration
is positive, else 0. -/
noncomputable def calculateSpeed (s : Stroke) : ℝ :=
  if calculateDuration s > 0 then calculateLength s / ((calculateDuration s : ℚ) : ℝ) else 0

open Classical in
/-- `StrokeAnalyzer.calculateDirection`: the normalized vector from the
first to the last path point; `(0, 0)` for fewer than 2 points or
coincident endpoints. -/
noncomputable def calculateDirection (s : Stroke) : ℝ × ℝ :=
  if s.path.length < 2 then (0, 0)
  else
    let start := s.path.getD 0 ⟨0, 0, none, none⟩
    let last := s.path.getD (s.path.length - 1) ⟨0, 0, none, none⟩
    let dx : ℝ := ((last.x - start.x : ℚ) : ℝ)
    let dy : ℝ := ((last.y - start.y : ℚ) : ℝ)
    let magnitude := Real.sqrt (dx ^ 2 + dy ^ 2)
    if magnitude > 0 then (dx / magnitude, dy / magnitude) else (0, 0)

/-- The five stroke classes returned by `StrokeAnalyzer.classifyStroke`. -/
inductive StrokeType where
  | horizontal
  | vertical
  | diagonal
  | curve
  | dot
deriving DecidableEq, Repr

/-- `Math.atan2(y, x)`, as the argument of the complex number `x + y i`
(range `(-π, π]`). -/
noncomputable def atan2 (y x : ℝ) : ℝ := Complex.arg ⟨x, y⟩

/-- The turning-angle test of `hasCurvature` for one consecutive point
triple: the absolute raw difference of the two segment `atan2` directions
exceeds `π/6` (30 degrees). -/
noncomputable def angleDiffExceeds (p₁ p₂ p₃ : Point) : Prop :=
  Real.pi / 6 <
    |atan2 ((p₃.y - p₂.y : ℚ) : ℝ) ((p₃.x - p₂.x : ℚ) : ℝ) -
      atan2 ((p₂.y - p₁.y : ℚ) : ℝ) ((p₂.x - p₁.x : ℚ) : ℝ)|

/-- All consecutive triples of a list, in order. -/
def consecutiveTriples {α : Type} : List α → List (α × α × α)
  | a :: b :: c :: rest => (a, b, c) :: consecutiveTriples (b :: c :: rest)
  | _ => []

open Classical in
/-- The `angleChanges` counter of `hasCurvature`. -/
noncomputable def angleChanges (s : Stroke) : ℕ :=
  (consecutiveTriples s.path).countP
    (fun t => decide (angleDiffExceeds t.1 t.2.1 t.2.2))

/-- `StrokeAnalyzer.hasCurvature`: false for fewer than 5 points, else
whether the count of large turning angles exceeds 10% of the point
count. -/
noncomputable def hasCurvature (s : Stroke) : Prop :=
  if s.path.length < 5 then False
  else (s.path.length : ℝ) * (1/10) < (angleChanges s : ℝ)

open Classical in
/-- `StrokeAnalyzer.classifyStroke`: dot for short strokes, then the
axis-direction thresholds, then the curvature test, with `diagonal` as
the final fallback. -/
noncomputable def classifyStroke (s : Stroke) : StrokeType :=
  let direction := calculateDirection s
  let length := calculateLength s
  if length < 10 then .dot
  else
    let absX := |direction.1|
    let absY := |direction.2|
    if absX > 0.8 ∧ absY < 0.3 then .horizontal
    else if absY > 0.8 ∧ absX < 0.3 then .vertical
    else if absX > 0.4 ∧ absY > 0.4 then .diagonal
    else if hasCurvature s then .curve
    else .diagonal

/-- `p.pressure || 1`: a missing or zero (falsy) pressure counts as 1. -/
def jsPressure (p : Point) : ℚ :=
  match p.pressure with
  | none => 1
  | some v => if v = 0 then 1 else v

/-- JavaScript division on our rational model: `none` stands for the
non-finite result produced when the divisor is zero (`0/0 = NaN`). -/
def jsDiv (a b : ℚ) : Option ℚ := if b = 0 then none else some (a / b)

/-- The `averagePressure` field of `analyzeStroke`: the pressure sum
divided by the point count, with no guard against an empty path. -/
def averagePressure (s : Stroke) : Option ℚ :=
  jsDiv (s.path.foldl (fun sum p => sum + jsPressure p) 0) (s.path.length : ℚ)

/-- The bounding box record of `calculateBoundingBox`. -/
structure BoundingBox where
  minX : ℚ
  minY : ℚ
  maxX : ℚ
  maxY : ℚ
  width : ℚ
  height : ℚ
deriving DecidableEq, Repr

/-- `StrokeAnalyzer.calculateBoundingBox`: all-zero for an empty path,
else the component-wise min/max over the path seeded with the first
point. -/
def calculateBoundingBox (s : Stroke) : BoundingBox :=
  match s.path with
  | [] => ⟨0, 0, 0, 0, 0, 0⟩
  | p₀ :: _ =>
      let minX := s.path.foldl (fun m p => min m p.x) p₀.x
      let minY := s.path.foldl (fun m p => min m p.y) p₀.y
      let maxX := s.path.foldl (fun m p => max m p.x) p₀.x
      let maxY := s.path.foldl (fun m p => max m p.y) p₀.y
      ⟨minX, minY, maxX, maxY, maxX - minX, maxY - minY⟩

/-- The derived analysis record of `analyzeStroke`. -/
structure StrokeAnalysis where
  length : ℝ
  duration : ℚ
  speed : ℝ
  direction : ℝ × ℝ
  type : StrokeType
  pointCount : ℕ
  averagePressure : Option ℚ
  boundingBox : BoundingBox

/-- `StrokeAnalyzer.analyzeStroke`: assembles every derived metric. -/
noncomputable def analyzeStroke (s : Stroke) : StrokeAnalysis :=
  { length := calculateLength s
    duration := calculateDuration s
    speed := calculateSpeed s
    direction := calculateDirection s
    type := classifyStroke s
    pointCount := s.path.length
    averagePressure := averagePressure s
    boundingBox := calculateBoundingBox s }

/-! ## Theorems: accuracy scorer -/

/-- C1: a 3-stroke attempt against a character with `strokeCount = 3`,
each stroke having 10 path points and spanning 200 ms, scores
`countPenaltyScore = 100`, per-stroke quality `24`, and final accuracy
`0.6 * 100 + 0.4 * 24 = 69.6`. -/
theorem three_stroke_scenario_accuracy (s₁ s₂ s₃ : Stroke) (ch : Character)
    (hc : ch.strokeCount = 3)
    (hp : ∀ s ∈ [s₁, s₂, s₃], s.path.length = 10 ∧ s.endTime - s.startTime = 200) :
    countPenalty ch.strokeCount 3 = 100 ∧
    (∀ s ∈ [s₁, s₂, s₃], strokeQuality s = 24) ∧
    calculateStrokeAccuracy [s₁, s₂, s₃] ch = 696/10 := by
  have hq : ∀ s ∈ [s₁, s₂, s₃], strokeQuality s = 24 := by
    intro s hs
    obtain ⟨hlen, hdur⟩ := hp s hs
    unfold strokeQuality
    rw [hlen, hdur]
    norm_num
  refine ⟨by rw [hc]; unfold countPenalty; norm_num, hq, ?_⟩
  have h₁ := hq s₁ (by simp)
  have h₂ := hq s₂ (by simp)
  have h₃ := hq s₃ (by simp)
  unfold calculateStrokeAccuracy
  rw [if_neg (by simp)]
  simp only [List.map, List.sum_cons, List.sum_nil, List.length_cons, List.length_nil,
    h₁, h₂, h₃, hc]
  unfold countPenalty
  norm_num

/-- Closed witness for C1 at a concrete 3-stroke attempt. -/
theorem three_stroke_scenario_accuracy_witness :
    calculateStrokeAccuracy
      [⟨List.replicate 10 ⟨0, 0, none, none⟩, 0, 200⟩,
       ⟨List.replicate 10 ⟨0, 0, none, none⟩, 0, 200⟩,
       ⟨List.replicate 10 ⟨0, 0, none, none⟩, 0, 200⟩] ⟨"三", 3⟩ = 696/10 :=
  (three_stroke_scenario_accuracy _ _ _ _ rfl
    (by
      intro s hs
      simp only [List.mem_cons, List.not_mem_nil, or_false] at hs
      rcases hs with rfl | rfl | rfl <;> exact ⟨by simp, by norm_num⟩)).2.2

/-- C4: the stroke-count penalty equals
`max(0, 100 - 20 * |expected - actual|)`; holding the strokes (hence the
per-stroke qualities) fixed, the final accuracy is non-increasing in the
stroke-count mismatch; and the penalty takes the values 100, 60, 0 at
deltas 0, 2, 7. -/
theorem accuracy_monotone_in_count_delta :
    (∀ e a : ℕ, countPenalty e a = max 0 (100 - 20 * |(e : ℚ) - (a : ℚ)|)) ∧
    (∀ (strokes : List Stroke) (c₁ c₂ : Character), strokes ≠ [] →
      |(c₁.strokeCount : ℚ) - (strokes.length : ℚ)| ≤
        |(c₂.strokeCount : ℚ) - (strokes.length : ℚ)| →
      calculateStrokeAccuracy strokes c₂ ≤ calculateStrokeAccuracy strokes c₁) ∧
    countPenalty 3 3 = 100 ∧ countPenalty 3 5 = 60 ∧ countPenalty 3 10 = 0 := by
  refine ⟨fun e a => by unfold countPenalty; ring_nf, ?_, ?_, ?_, ?_⟩
  · intro strokes c₁ c₂ hne hd
    unfold calculateStrokeAccuracy
    rw [if_neg hne, if_neg hne]
    dsimp only
    have hpen : countPenalty c₂.strokeCount strokes.length ≤
        countPenalty c₁.strokeCount strokes.length := by
      unfold countPenalty
      exact max_le_max le_rfl (by linarith)
    exact max_le_max le_rfl (min_le_min le_rfl (by linarith))
  · unfold countPenalty; norm_num
  · unfold countPenalty; norm_num
  · unfold countPenalty; norm_num

/-- Closed witness for C4: the monotonicity applied to a concrete
one-point-stroke attempt with expected counts 3 and 5 against 3 actual
strokes. -/
theorem accuracy_monotone_in_count_delta_witness :
    calculateStrokeAccuracy
        [⟨[], 0, 0⟩, ⟨[], 0, 0⟩, ⟨[], 0, 0⟩] ⟨"五", 5⟩ ≤
      calculateStrokeAccuracy
        [⟨[], 0, 0⟩, ⟨[], 0, 0⟩, ⟨[], 0, 0⟩] ⟨"三", 3⟩ :=
  accuracy_monotone_in_count_delta.2.1
    [⟨[], 0, 0⟩, ⟨[], 0, 0⟩, ⟨[], 0, 0⟩] ⟨"三", 3⟩ ⟨"五", 5⟩
    (by simp) (by norm_num)

/-! ## Theorems: spaced-repetition scheduler -/

/-- C2: the next-review delay is 0.5 day (43 200 000 ms) for average
accuracy below 60, 1 day (86 400 000 ms) for averages in [60, 80), and
`1 day * min(2^streak, 30)` otherwise; a first attempt with accuracy 50
stores streak 0 and schedules the next review 0.5 day after `now`. -/
theorem next_review_delay_spec :
    (∀ (avg : ℚ) (streak : ℕ),
      (avg < 60 → calculateNextReviewDelay avg streak = 43200000) ∧
      (60 ≤ avg → avg < 80 → calculateNextReviewDelay avg streak = 86400000) ∧
      (80 ≤ avg →
        calculateNextReviewDelay avg streak = 86400000 * min ((2 : ℚ) ^ streak) 30)) ∧
    (∀ now : ℚ, (updateUserProgress none 50 now).streak = 0 ∧
      (updateUserProgress none 50 now).nextReview = now + 43200000) := by
  constructor
  · intro avg streak
    refine ⟨fun h => ?_, fun h₁ h₂ => ?_, fun h => ?_⟩
    · unfold calculateNextReviewDelay
      rw [if_pos h]; norm_num
    · unfold calculateNextReviewDelay
      rw [if_neg (by linarith), if_pos h₂]; norm_num
    · unfold calculateNextReviewDelay
      rw [if_neg (by linarith), if_neg (by linarith)]; norm_num
  · intro now
    constructor
    · unfold updateUserProgress
      norm_num
    · unfold updateUserProgress calculateNextReviewDelay
      norm_num

/-- Closed witness for C2 at `avg = 50`, `streak = 0`, `now = 0`. -/
theorem next_review_delay_spec_witness :
    calculateNextReviewDelay 50 0 = 43200000 ∧
    (updateUserProgress none 50 0).streak = 0 ∧
    (updateUserProgress none 50 0).nextReview = 0 + 43200000 :=
  ⟨(next_review_delay_spec.1 50 0).1 (by norm_num),
   (next_review_delay_spec.2 0).1, (next_review_delay_spec.2 0).2⟩

/-- C3: the mastery level is the top-down first-match lookup on
`(averageAccuracy, streak)`; five consecutive attempts with accuracy ≥ 80
leave streak 5; and the boundary pair (95, 5) maps to 5 while (94.9, 5)
maps to 4. -/
theorem mastery_level_spec :
    (∀ (avg : ℚ) (streak : ℕ),
      (avg ≥ 95 ∧ streak ≥ 5 → calculateMasteryLevel avg streak = 5) ∧
      (¬(avg ≥ 95 ∧ streak ≥ 5) → avg ≥ 90 ∧ streak ≥ 4 →
        calculateMasteryLevel avg streak = 4) ∧
      (¬(avg ≥ 95 ∧ streak ≥ 5) → ¬(avg ≥ 90 ∧ streak ≥ 4) → avg ≥ 85 ∧ streak ≥ 3 →
        calculateMasteryLevel avg streak = 3) ∧
      (¬(avg ≥ 95 ∧ streak ≥ 5) → ¬(avg ≥ 90 ∧ streak ≥ 4) → ¬(avg ≥ 85 ∧ streak ≥ 3) →
        avg ≥ 75 ∧ streak ≥ 2 → calculateMasteryLevel avg streak = 2) ∧
      (¬(avg ≥ 95 ∧ streak ≥ 5) → ¬(avg ≥ 90 ∧ streak ≥ 4) → ¬(avg ≥ 85 ∧ streak ≥ 3) →
        ¬(avg ≥ 75 ∧ streak ≥ 2) → avg ≥ 60 ∧ streak ≥ 1 →
        calculateMasteryLevel avg streak = 1) ∧
      (¬(avg ≥ 95 ∧ streak ≥ 5) → ¬(avg ≥ 90 ∧ streak ≥ 4) → ¬(avg ≥ 85 ∧ streak ≥ 3) →
        ¬(avg ≥ 75 ∧ streak ≥ 2) → ¬(avg ≥ 60 ∧ streak ≥ 1) →
        calculateMasteryLevel avg streak = 0)) ∧
    (∀ (l : List ℚ) (now : ℚ), l.length = 5 → (∀ x ∈ l, 80 ≤ x) →
      (runAttempts l now).map UserProgress.streak = some 5) ∧
    calculateMasteryLevel 95 5 = 5 ∧ calculateMasteryLevel (949/10) 5 = 4 := by
  refine ⟨?_, ?_, ?_, ?_⟩
  · intro avg streak
    refine ⟨fun h => ?_, fun h₁ h₂ => ?_, fun h₁ h₂ h₃ => ?_, fun h₁ h₂ h₃ h₄ => ?_,
      fun h₁ h₂ h₃ h₄ h₅ => ?_, fun h₁ h₂ h₃ h₄ h₅ => ?_⟩ <;>
      unfold calculateMasteryLevel <;>
      simp only [if_pos, if_neg, *] <;> rfl
  · intro l now hlen hge
    match l, hlen with
    | [a, b, c, d, e], _ =>
      have ha : a ≥ 80 := hge a (by simp)
      have hb : b ≥ 80 := hge b (by simp)
      have hc : c ≥ 80 := hge c (by simp)
      have hd : d ≥ 80 := hge d (by simp)
      have he : e ≥ 80 := hge e (by simp)
      simp only [runAttempts, List.foldl, Option.map]
      unfold updateUserProgress
      simp only [if_pos ha, if_pos hb, if_pos hc, if_pos hd, if_pos he]
  · unfold calculateMasteryLevel; norm_num
  · unfold calculateMasteryLevel; norm_num

/-- Closed witness for C3: five attempts at accuracy 90 from no prior
record leave streak 5. -/
theorem mastery_level_spec_witness :
    (runAttempts [90, 90, 90, 90, 90] 0).map UserProgress.streak = some 5 :=
  mastery_level_spec.2.1 [90, 90, 90, 90, 90] 0 rfl (by intro x hx; simp at hx; norm_num [hx])

/-- The next-review delay is positive in every branch. -/
theorem calculateNextReviewDelay_pos (accuracy : ℚ) (streak : ℕ) :
    0 < calculateNextReviewDelay accuracy streak := by
  unfold calculateNextReviewDelay
  split
  · norm_num
  · split
    · norm_num
    · have h1 : (0 : ℚ) < (2 : ℚ) ^ streak := by positivity
      have h2 : (0 : ℚ) < min ((2 : ℚ) ^ streak) 30 := lt_min h1 (by norm_num)
      show (0 : ℚ) < (1000 * 60 * 60 * 24 : ℚ) * min ((2 : ℚ) ^ streak) 30
      nlinarith

/-- C8: after every progress update — both the create path for a first
attempt and the update path for subsequent attempts — the stored
`nextReview` timestamp is at least the stored `lastPracticed` timestamp. -/
theorem nextReview_ge_lastPracticed (existing : Option UserProgress)
    (accuracy now : ℚ) :
    (updateUserProgress existing accuracy now).lastPracticed ≤
      (updateUserProgress existing accuracy now).nextReview := by
  cases existing with
  | none =>
      simp only [updateUserProgress]
      have := calculateNextReviewDelay_pos accuracy (if accuracy ≥ 80 then 1 else 0)
      linarith
  | some p =>
      simp only [updateUserProgress]
      have := calculateNextReviewDelay_pos
        ((takeLast 10 (p.accuracyHistory ++ [accuracy])).sum /
          ((takeLast 10 (p.accuracyHistory ++ [accuracy])).length : ℚ))
        (if accuracy ≥ 80 then p.streak + 1 else 0)
      linarith

/-! ## Theorems: attempt-submission validation -/

/-- C7 counterexample: a request whose five required fields are all
present in the body — `username` being the empty string — is still
rejected with the validation error, so "rejects iff a field is missing"
fails in the only-if direction. -/
theorem post_validation_counterexample :
    (handlePost ⟨[], [], [], []⟩
        ⟨some "", some "s1", some "e1", some "c1", some 50, none, none, none, none, none⟩
        0).1 =
      .badRequest
        "Missing required fields: username, sessionUuid, exerciseId, characterId, accuracy" ∧
    (some "" : Option String) ≠ none ∧ (some "s1" : Option String) ≠ none ∧
    (some "e1" : Option String) ≠ none ∧ (some "c1" : Option String) ≠ none ∧
    (some 50 : Option ℚ) ≠ none := by
  refine ⟨?_, by simp, by simp, by simp, by simp, by simp⟩
  rfl

/-- C7 (amended): the handler rejects with the validation error iff one
of `username`, `sessionUuid`, `exerciseId`, `characterId` is missing or
the empty string, or `accuracy` is missing; otherwise it accepts and
appends the attempt row to the database. -/
theorem post_validation_spec (db : Db) (req : AttemptRequest) (now : ℚ) :
    ((∃ e, (handlePost db req now).1 = .badRequest e) ↔
      (req.username = none ∨ req.username = some "" ∨
       req.sessionUuid = none ∨ req.sessionUuid = some "" ∨
       req.exerciseId = none ∨ req.exerciseId = some "" ∨
       req.characterId = none ∨ req.characterId = some "" ∨
       req.accuracy = none)) ∧
    (¬(req.username = none ∨ req.username = some "" ∨
       req.sessionUuid = none ∨ req.sessionUuid = some "" ∨
       req.exerciseId = none ∨ req.exerciseId = some "" ∨
       req.characterId = none ∨ req.characterId = some "" ∨
       req.accuracy = none) →
      ∃ a, (handlePost db req now).1 = .ok a ∧
        (handlePost db req now).2.attempts = db.attempts ++ [a]) := by
  have hfalsy : ∀ o : Option String, jsTruthy o = false ↔ (o = none ∨ o = some "") := by
    intro o
    cases o with
    | none => simp [jsTruthy]
    | some s => simp [jsTruthy]
  have hnone : ∀ o : Option ℚ, (o == none) = true ↔ o = none := by
    intro o; cases o <;> simp
  by_cases hcond : (!(jsTruthy req.username) || !(jsTruthy req.sessionUuid)
      || !(jsTruthy req.exerciseId) || !(jsTruthy req.characterId)
      || req.accuracy == none) = true
  · have hdis : req.username = none ∨ req.username = some "" ∨
        req.sessionUuid = none ∨ req.sessionUuid = some "" ∨
        req.exerciseId = none ∨ req.exerciseId = some "" ∨
        req.characterId = none ∨ req.characterId = some "" ∨
        req.accuracy = none := by
      simp only [Bool.or_eq_true, Bool.not_eq_true'] at hcond
      rcases hcond with ((((h | h) | h) | h) | h)
      · rcases (hfalsy _).mp h with h' | h'
        · exact Or.inl h'
        · exact Or.inr (Or.inl h')
      · rcases (hfalsy _).mp h with h' | h'
        · exact Or.inr (Or.inr (Or.inl h'))
        · exact Or.inr (Or.inr (Or.inr (Or.inl h')))
      · rcases (hfalsy _).mp h with h' | h'
        · exact Or.inr (Or.inr (Or.inr (Or.inr (Or.inl h'))))
        · exact Or.inr (Or.inr (Or.inr (Or.inr (Or.inr (Or.inl h')))))
      · rcases (hfalsy _).mp h with h' | h'
        · exact Or.inr (Or.inr (Or.inr (Or.inr (Or.inr (Or.inr (Or.inl h'))))))
        · exact Or.inr (Or.inr (Or.inr (Or.inr (Or.inr (Or.inr (Or.inr (Or.inl h')))))))
      · exact Or.inr (Or.inr (Or.inr (Or.inr (Or.inr (Or.inr (Or.inr (Or.inr
          ((hnone _).mp h))))))))
    constructor
    · constructor
      · intro _; exact hdis
      · intro _
        refine ⟨"Missing required fields: username, sessionUuid, exerciseId, characterId, accuracy", ?_⟩
        unfold handlePost
        rw [if_pos hcond]
    · intro hno; exact absurd hdis hno
  · constructor
    · constructor
      · rintro ⟨e, he⟩
        unfold handlePost at he
        rw [if_neg hcond] at he
        exact absurd he (by simp)
      · intro hdis
        exfalso
        apply hcond
        simp only [Bool.or_eq_true, Bool.not_eq_true']
        rcases hdis with h | h | h | h | h | h | h | h | h
        · exact Or.inl (Or.inl (Or.inl (Or.inl ((hfalsy _).mpr (Or.inl h)))))
        · exact Or.inl (Or.inl (Or.inl (Or.inl ((hfalsy _).mpr (Or.inr h)))))
        · exact Or.inl (Or.inl (Or.inl (Or.inr ((hfalsy _).mpr (Or.inl h)))))
        · exact Or.inl (Or.inl (Or.inl (Or.inr ((hfalsy _).mpr (Or.inr h)))))
        · exact Or.inl (Or.inl (Or.inr ((hfalsy _).mpr (Or.inl h))))
        · exact Or.inl (Or.inl (Or.inr ((hfalsy _).mpr (Or.inr h))))
        · exact Or.inl (Or.inr ((hfalsy _).mpr (Or.inl h)))
        · exact Or.inl (Or.inr ((hfalsy _).mpr (Or.inr h)))
        · exact Or.inr ((hnone _).mpr h)
    · intro _
      unfold handlePost
      rw [if_neg hcond]
      exact ⟨_, rfl, rfl⟩

/-- Closed witness for C7's amended theorem: a fully populated request is
accepted and its attempt row appended. -/
theorem post_validation_spec_witness :
    ∃ a, (handlePost ⟨[], [], [], []⟩
        ⟨some "alice", some "s1", some "e1", some "c1", some 50, none, none, none, none, none⟩
        0).1 = .ok a ∧
      (handlePost ⟨[], [], [], []⟩
        ⟨some "alice", some "s1", some "e1", some "c1", some 50, none, none, none, none, none⟩
        0).2.attempts = ([] : List PracticeAttempt) ++ [a] :=
  (post_validation_spec ⟨[], [], [], []⟩
      ⟨some "alice", some "s1", some "e1", some "c1", some 50, none, none, none, none, none⟩
      0).2 (by simp)

/-! ## Theorems: stroke-count estimation -/

/-- A successful association-list lookup returns a pair of the list. -/
theorem mem_of_lookup_eq_some {α β : Type} [BEq α] [LawfulBEq α]
    {l : List (α × β)} {a : α} {b : β}
    (h : l.lookup a = some b) : (a, b) ∈ l := by
  induction l with
  | nil => simp [List.lookup] at h
  | cons p t ih =>
      rw [List.lookup] at h
      by_cases hk : a == p.1
      · rw [hk] at h
        simp only [Option.some.injEq] at h
        subst h
        have : a = p.1 := by exact_mod_cast beq_iff_eq.mp hk
        subst this
        exact List.mem_cons_self _ _
      · rw [Bool.eq_false_iff.mpr hk] at h
        exact List.mem_cons_of_mem _ (ih h)

/-- Every value in the stroke-count table is nonzero (so the source's
truthiness test `if (STROKE_COUNTS[character])` means "mapped"). -/
theorem STROKE_COUNTS_values_pos : STROKE_COUNTS.all (fun p => p.2 ≠ 0) = true := by decide

/-- C9: a character mapped in `STROKE_COUNTS` gets its table value on
every call — two calls agree; an unmapped character gets a value from a
Unicode-block-dependent random range (3-10, 6-17, 8-22 or 5-24), and
there is an unmapped character for which two calls disagree. -/
theorem stroke_count_determinism :
    (∀ (c : String) (v : ℕ) (r₁ r₂ : ℚ), STROKE_COUNTS.lookup c = some v →
      getStrokeCount c r₁ = v ∧ getStrokeCount c r₁ = getStrokeCount c r₂) ∧
    (∀ (c : String) (r : ℚ), STROKE_COUNTS.lookup c = none → 0 ≤ r → r < 1 →
      (3 ≤ getStrokeCount c r ∧ getStrokeCount c r ≤ 10) ∨
      (6 ≤ getStrokeCount c r ∧ getStrokeCount c r ≤ 17) ∨
      (8 ≤ getStrokeCount c r ∧ getStrokeCount c r ≤ 22) ∨
      (5 ≤ getStrokeCount c r ∧ getStrokeCount c r ≤ 24)) ∧
    (∃ (c : String) (r₁ r₂ : ℚ), STROKE_COUNTS.lookup c = none ∧
      0 ≤ r₁ ∧ r₁ < 1 ∧ 0 ≤ r₂ ∧ r₂ < 1 ∧
      getStrokeCount c r₁ ≠ getStrokeCount c r₂) := by
  refine ⟨?_, ?_, ?_⟩
  · intro c v r₁ r₂ h
    have hv : v ≠ 0 := by
      have hmem := mem_of_lookup_eq_some h
      have hall := STROKE_COUNTS_values_pos
      rw [List.all_eq_true] at hall
      simpa using hall _ hmem
    have : ∀ r : ℚ, getStrokeCount c r = v := by
      intro r
      unfold getStrokeCount
      rw [h]
      simp [hv]
    rw [this r₁, this r₂]
    exact ⟨rfl, rfl⟩
  · intro c r h h0 h1
    have hfloor : ∀ m : ℕ, 0 < m → Nat.floor (r * (m : ℚ)) ≤ m - 1 := by
      intro m hm
      have hlt : r * (m : ℚ) < (m : ℚ) := by
        have : (0 : ℚ) < (m : ℚ) := by exact_mod_cast hm
        nlinarith
      have := (Nat.floor_lt (by positivity : (0 : ℚ) ≤ r * (m : ℚ))).mpr
        (by exact_mod_cast hlt)
      omega
    have h8 := hfloor 8 (by norm_num)
    have h12 := hfloor 12 (by norm_num)
    have h15 := hfloor 15 (by norm_num)
    have h20 := hfloor 20 (by norm_num)
    norm_num at h8 h12 h15 h20
    unfold getStrokeCount
    rw [h]
    simp only [Option.getD_none, ne_eq, not_true_eq_false, if_false]
    cases hd : c.data with
    | nil =>
        simp only [hd]
        right; right; right
        omega
    | cons ch rest =>
        simp only [hd]
        by_cases hb1 : 0x4E00 ≤ ch.toNat ∧ ch.toNat ≤ 0x4FFF
        · rw [if_pos hb1]
          left; omega
        · rw [if_neg hb1]
          by_cases hb2 : 0x5000 ≤ ch.toNat ∧ ch.toNat ≤ 0x62FF
          · rw [if_pos hb2]
            right; left; omega
          · rw [if_neg hb2]
            by_cases hb3 : 0x6300 ≤ ch.toNat ∧ ch.toNat ≤ 0x77FF
            · rw [if_pos hb3]
              right; right; left; omega
            · rw [if_neg hb3]
              right; right; right; omega
  · refine ⟨"你", 0, 7/8, by rfl, by norm_num, by norm_num, by norm_num, by norm_num, ?_⟩
    show getStrokeCount "你" 0 ≠ getStrokeCount "你" (7/8)
    have hdata : ("你".data) = ['你'] := rfl
    have hcode : ('你'.toNat) = 20320 := rfl
    have h₁ : getStrokeCount "你" 0 = 3 := by
      unfold getStrokeCount
      rw [show (STROKE_COUNTS.lookup "你") = none from rfl]
      simp only [hdata, hcode, Option.getD_none, ne_eq, not_true_eq_false, if_false]
      norm_num
    have h₂ : getStrokeCount "你" (7/8) = 10 := by
      unfold getStrokeCount
      rw [show (STROKE_COUNTS.lookup "你") = none from rfl]
      simp only [hdata, hcode, Option.getD_none, ne_eq, not_true_eq_false, if_false]
      rw [if_pos (by norm_num)]
      rw [show ((7/8 : ℚ) * 8) = 7 by norm_num]
      norm_num
    rw [h₁, h₂]
    omega

/-- Closed witness for C9: two calls on the mapped character `一` agree
and return its table entry. -/
theorem stroke_count_determinism_witness :
    getStrokeCount "一" 0 = 1 ∧ getStrokeCount "一" 0 = getStrokeCount "一" (1/2) :=
  stroke_count_determinism.1 "一" 1 0 (1/2) rfl

/-! ## Theorems: stroke geometry analyzer -/

/-- C10: for a stroke with an empty path, `analyzeStroke` divides the
zero pressure sum by the zero point count — a non-finite JavaScript
result (`0/0 = NaN`, modelled as `none`) — while `length`, `direction`
and `boundingBox` all take their guarded zero values. -/
theorem empty_path_average_pressure_nan (s : Stroke) (h : s.path = []) :
    (s.path.foldl (fun sum p => sum + jsPressure p) 0 = 0 ∧ s.path.length = 0) ∧
    (analyzeStroke s).averagePressure = none ∧
    (analyzeStroke s).length = 0 ∧
    (analyzeStroke s).direction = (0, 0) ∧
    (analyzeStroke s).boundingBox = ⟨0, 0, 0, 0, 0, 0⟩ := by
  refine ⟨⟨by rw [h]; rfl, by rw [h]; rfl⟩, ?_, ?_, ?_, ?_⟩
  · show averagePressure s = none
    unfold averagePressure jsDiv
    rw [h]
    norm_num
  · show calculateLength s = 0
    unfold calculateLength
    rw [h]
    norm_num
  · show calculateDirection s = (0, 0)
    unfold calculateDirection
    rw [h]
    norm_num
  · show calculateBoundingBox s = ⟨0, 0, 0, 0, 0, 0⟩
    unfold calculateBoundingBox
    rw [h]

/-- Closed witness for C10 at the concrete empty stroke. -/
theorem empty_path_average_pressure_nan_witness :
    (analyzeStroke ⟨[], 0, 0⟩).averagePressure = none ∧
    (analyzeStroke ⟨[], 0, 0⟩).length = 0 ∧
    (analyzeStroke ⟨[], 0, 0⟩).direction = (0, 0) ∧
    (analyzeStroke ⟨[], 0, 0⟩).boundingBox = ⟨0, 0, 0, 0, 0, 0⟩ :=
  (empty_path_average_pressure_nan ⟨[], 0, 0⟩ rfl).2

/-- C6: when none of the dot/horizontal/vertical/diagonal direction rules
fires, the classifier returns `curve` exactly when the path has at least
5 points and the count of consecutive triples whose raw `atan2` direction
difference exceeds 30° is more than 10% of the point count, and
`diagonal` in every remaining case. -/
theorem classify_curve_fallback (s : Stroke)
    (hdot : ¬ calculateLength s < 10)
    (hh : ¬ (|(calculateDirection s).1| > 0.8 ∧ |(calculateDirection s).2| < 0.3))
    (hv : ¬ (|(calculateDirection s).2| > 0.8 ∧ |(calculateDirection s).1| < 0.3))
    (hd : ¬ (|(calculateDirection s).1| > 0.4 ∧ |(calculateDirection s).2| > 0.4)) :
    (classifyStroke s = .curve ↔
      (5 ≤ s.path.length ∧ (s.path.length : ℝ) * (1/10) < (angleChanges s : ℝ))) ∧
    (¬(5 ≤ s.path.length ∧ (s.path.length : ℝ) * (1/10) < (angleChanges s : ℝ)) →
      classifyStroke s = .diagonal) := by
  have hcurv : hasCurvature s ↔
      (5 ≤ s.path.length ∧ (s.path.length : ℝ) * (1/10) < (angleChanges s : ℝ)) := by
    unfold hasCurvature
    by_cases h5 : s.path.length < 5
    · rw [if_pos h5]
      constructor
      · intro hf; exact absurd hf (by simp)
      · rintro ⟨h, _⟩; omega
    · rw [if_neg h5]
      constructor
      · intro hc; exact ⟨by omega, hc⟩
      · rintro ⟨_, hc⟩; exact hc
  unfold classifyStroke
  dsimp only
  rw [if_neg hdot, if_neg hh, if_neg hv, if_neg hd]
  constructor
  · by_cases hc : hasCurvature s
    · rw [if_pos hc]
      exact ⟨fun _ => hcurv.mp hc, fun _ => rfl⟩
    · rw [if_neg hc]
      constructor
      · intro habs; exact absurd habs (by simp)
      · intro hcond; exact absurd (hcurv.mpr hcond) hc
  · intro hncond
    rw [if_neg (fun hc => hncond (hcurv.mp hc))]

/-- A concrete closed loop: three points out 10 units and back, so the
endpoints coincide (zero direction vector) while the length is 20. -/
def curveFallbackStroke : Stroke :=
  ⟨[⟨0, 0, none, none⟩, ⟨10, 0, none, none⟩, ⟨0, 0, none, none⟩], 0, 1⟩

/-- The concrete stroke has total length 20. -/
theorem curveFallbackStroke_length : calculateLength curveFallbackStroke = 20 := by
  unfold calculateLength curveFallbackStroke
  rw [if_neg (by norm_num)]
  simp only [List.tail_cons, List.zip_cons_cons, List.zip_nil_right, List.foldl]
  have h100 : Real.sqrt 100 = 10 := by
    rw [show (100 : ℝ) = 10 ^ 2 by norm_num]
    exact Real.sqrt_sq (by norm_num)
  norm_num [h100]

/-- The concrete stroke's direction is the zero vector (coincident
endpoints). -/
theorem curveFallbackStroke_direction :
    calculateDirection curveFallbackStroke = (0, 0) := by
  unfold calculateDirection curveFallbackStroke
  rw [if_neg (by norm_num)]
  norm_num [List.getD]

/-- Closed witness for C6: the concrete loop stroke escapes the direction
rules (zero direction vector, length 20) and, with only 3 points, fails
the curvature test, so it classifies as `diagonal`. -/
theorem classify_curve_fallback_witness :
    classifyStroke curveFallbackStroke = .diagonal :=
  (classify_curve_fallback curveFallbackStroke
      (by rw [curveFallbackStroke_length]; norm_num)
      (by rw [curveFallbackStroke_direction]; norm_num)
      (by rw [curveFallbackStroke_direction]; norm_num)
      (by rw [curveFallbackStroke_direction]; norm_num)).2
    (by
      rintro ⟨h5, _⟩
      simp only [curveFallbackStroke, List.length_cons, List.length_nil] at h5
      omega)

/-! ## Theorems: progression selector -/

/-- `List.contains` agrees with membership for strings. -/
theorem contains_iff {S : List String} {x : String} :
    S.contains x = true ↔ x ∈ S := by simp

/-- Splitting a list's length by a filter and its complement. -/
theorem filter_length_split (p : String → Bool) (l : List String) :
    (l.filter p).length + (l.filter (fun c => !(p c))).length = l.length := by
  induction l with
  | nil => rfl
  | cons a t ih =>
      by_cases h : p a
      · simp [List.filter_cons, h]; omega
      · simp [List.filter_cons, h]; omega

/-- Filtering away the members of a duplicate-free sublist removes
exactly its length. -/
theorem filter_not_mem_length {A S : List String} (hA : A.Nodup) (hS : S.Nodup)
    (hsub : ∀ x ∈ S, x ∈ A) :
    (A.filter (fun c => !(S.contains c))).length = A.length - S.length := by
  have hmemlen : (A.filter (fun c => S.contains c)).length = S.length := by
    have hperm : (A.filter (fun c => S.contains c)).Perm S := by
      apply List.perm_of_nodup_nodup_toFinset_eq (hA.filter _) hS
      ext x
      simp only [List.mem_toFinset, List.mem_filter]
      constructor
      · rintro ⟨_, hx⟩; exact contains_iff.mp hx
      · intro hx; exact ⟨hsub x hx, contains_iff.mpr hx⟩
    exact hperm.length_eq
  have := filter_length_split (fun c => S.contains c) A
  omega

/-- Appending a character to its bucket appends it to the flattened
bucket contents, up to permutation. -/
theorem addToGroup_flatten (d : ℕ) (c : String) (g : List (ℕ × List String)) :
    ((addToGroup d c g).map Prod.snd).flatten.Perm
      ((g.map Prod.snd).flatten ++ [c]) := by
  induction g with
  | nil => simp [addToGroup]
  | cons p rest ih =>
      obtain ⟨k, b⟩ := p
      unfold addToGroup
      by_cases hk : k = d
      · rw [if_pos hk]
        simp only [List.map_cons, List.flatten_cons, List.append_assoc]
        exact List.Perm.append_left b List.perm_append_comm
      · rw [if_neg hk]
        simp only [List.map_cons, List.flatten_cons, List.append_assoc]
        exact List.Perm.append_left b ih

/-- Appending a character either reuses an existing difficulty key or
adds a fresh key at the end. -/
theorem addToGroup_keys (d : ℕ) (c : String) (g : List (ℕ × List String)) :
    (addToGroup d c g).map Prod.fst =
      if d ∈ g.map Prod.fst then g.map Prod.fst else g.map Prod.fst ++ [d] := by
  induction g with
  | nil => simp [addToGroup]
  | cons p rest ih =>
      obtain ⟨k, b⟩ := p
      unfold addToGroup
      by_cases hk : k = d
      · rw [if_pos hk]
        subst hk
        simp
      · rw [if_neg hk]
        simp only [List.map_cons, ih]
        by_cases hd : d ∈ rest.map Prod.fst
        · rw [if_pos hd, if_pos (List.mem_cons_of_mem _ hd)]
        · have hnotin : d ∉ (k :: rest.map Prod.fst) := by
            simp only [List.mem_cons]
            rintro (h | h)
            · exact hk h.symm
            · exact hd h
          rw [if_neg hd, if_neg hnotin]
          simp

/-- The flattened bucket contents of the difficulty grouping are a
permutation of the grouped characters. -/
theorem groupByDifficulty_flatten (o : Oracles) (chars : List String) :
    ((groupByDifficulty o chars).map Prod.snd).flatten.Perm chars := by
  suffices h : ∀ acc : List (ℕ × List String),
      (((chars.foldl (fun acc c => addToGroup (difficultyOf o c) c acc) acc).map
        Prod.snd).flatten).Perm ((acc.map Prod.snd).flatten ++ chars) by
    simpa [groupByDifficulty] using h []
  induction chars with
  | nil => intro acc; simp
  | cons c rest ih =>
      intro acc
      simp only [List.foldl_cons]
      refine List.Perm.trans (ih (addToGroup (difficultyOf o c) c acc)) ?_
      refine List.Perm.trans (List.Perm.append_right rest (addToGroup_flatten _ _ _)) ?_
      rw [List.append_assoc]
      exact List.Perm.refl _

/-- The difficulty keys of the grouping are duplicate-free. -/
theorem groupByDifficulty_keys_nodup (o : Oracles) (chars : List String) :
    ((groupByDifficulty o chars).map Prod.fst).Nodup := by
  suffices h : ∀ acc : List (ℕ × List String), (acc.map Prod.fst).Nodup →
      (((chars.foldl (fun acc c => addToGroup (difficultyOf o c) c acc) acc).map
        Prod.fst)).Nodup by
    simpa [groupByDifficulty] using h [] (by simp)
  induction chars with
  | nil => intro acc h; simpa using h
  | cons c rest ih =>
      intro acc h
      simp only [List.foldl_cons]
      apply ih
      rw [addToGroup_keys]
      by_cases hd : difficultyOf o c ∈ acc.map Prod.fst
      · rw [if_pos hd]; exact h
      · rw [if_neg hd]
        apply List.Nodup.append h (List.nodup_singleton _)
        intro x hx hx'
        rw [List.mem_singleton] at hx'
        exact hd (hx' ▸ hx)

/-- Every bucket member occurs in the flattened bucket contents. -/
theorem bucketOf_mem_flatten {g : List (ℕ × List String)} {d : ℕ} {c : String}
    (h : c ∈ bucketOf g d) : c ∈ (g.map Prod.snd).flatten := by
  unfold bucketOf at h
  cases hl : g.lookup d with
  | none => rw [hl] at h; simp at h
  | some b =>
      rw [hl] at h
      simp only [Option.getD_some] at h
      exact List.mem_flatten.mpr
        ⟨b, List.mem_map_of_mem Prod.snd (mem_of_lookup_eq_some hl), h⟩

/-- A bucket of a grouping with duplicate-free flattened contents is
duplicate-free. -/
theorem bucketOf_nodup {g : List (ℕ × List String)}
    (hg : (g.map Prod.snd).flatten.Nodup) (d : ℕ) : (bucketOf g d).Nodup := by
  unfold bucketOf
  cases hl : g.lookup d with
  | none => simp
  | some b =>
      simp only [Option.getD_some]
      exact (List.nodup_flatten.mp hg).1 b
        (List.mem_map_of_mem Prod.snd (mem_of_lookup_eq_some hl))

/-- Evaluating a bucket lookup through a cons cell. -/
theorem bucketOf_cons (k : ℕ) (b : List String) (rest : List (ℕ × List String))
    (x : ℕ) : bucketOf ((k, b) :: rest) x = if x = k then b else bucketOf rest x := by
  by_cases hxk : x = k
  · subst hxk
    simp [bucketOf, List.lookup]
  · simp only [bucketOf, List.lookup, if_neg hxk]
    rw [show (x == k) = false from beq_eq_false_iff_ne.mpr hxk]

/-- Buckets at distinct difficulty keys are disjoint when the flattened
contents are duplicate-free. -/
theorem bucketOf_disjoint :
    ∀ (g : List (ℕ × List String)), (g.map Prod.snd).flatten.Nodup →
      ∀ {d d' : ℕ}, d ≠ d' → ∀ {c : String},
        c ∈ bucketOf g d → c ∉ bucketOf g d' := by
  intro g
  induction g with
  | nil =>
      intro _ d d' _ c hc
      simp [bucketOf, List.lookup] at hc
  | cons p rest ih =>
      obtain ⟨k, b⟩ := p
      intro hg d d' hdd c hc
      simp only [List.map_cons, List.flatten_cons] at hg
      have hdisj : ∀ x ∈ b, x ∉ (rest.map Prod.snd).flatten :=
        fun x hx => (List.nodup_append.mp hg).2.2 hx
      have hrest : (rest.map Prod.snd).flatten.Nodup := (List.nodup_append.mp hg).2.1
      rw [bucketOf_cons] at hc
      rw [bucketOf_cons]
      by_cases hdk : d = k
      · rw [if_pos hdk] at hc
        rw [if_neg (fun h => hdd (hdk.trans h.symm))]
        exact fun hmem => hdisj c hc (bucketOf_mem_flatten hmem)
      · rw [if_neg hdk] at hc
        by_cases hd'k : d' = k
        · rw [if_pos hd'k]
          exact fun hcb => hdisj c hcb (bucketOf_mem_flatten hc)
        · rw [if_neg hd'k]
          exact ih hrest hdd hc

/-- Every element taken from a bucket is a member of that bucket. -/
theorem takeFromBucket_subset {o : Oracles}
    (hsort : ∀ l, (o.sortJitter l).Perm l) (count : ℕ)
    (G : List (ℕ × List String)) (D d : ℕ) :
    ∀ c ∈ takeFromBucket o count G D d, c ∈ bucketOf G d := by
  intro c hc
  exact (hsort (bucketOf G d)).mem_iff.mp (List.mem_of_mem_take hc)

/-- Everything the selection loop returns comes from the accumulator or
from some bucket. -/
theorem selectLoop_mem {o : Oracles}
    (hsort : ∀ l, (o.sortJitter l).Perm l) (count : ℕ)
    (G : List (ℕ × List String)) (D : ℕ) (P : String → Prop)
    (hbucket : ∀ d : ℕ, ∀ c ∈ bucketOf G d, P c) :
    ∀ (ds : List ℕ) (acc : List String), (∀ c ∈ acc, P c) →
      ∀ c ∈ selectLoop o count G D ds acc, P c := by
  intro ds
  induction ds with
  | nil =>
      intro acc hacc c hc
      rw [selectLoop] at hc
      exact hacc c hc
  | cons d ds ih =>
      intro acc hacc c hc
      rw [selectLoop] at hc
      have hstep : ∀ x ∈ acc ++ takeFromBucket o count G D d, P x := by
        intro x hx
        rcases List.mem_append.mp hx with h | h
        · exact hacc x h
        · exact hbucket d x (takeFromBucket_subset hsort count G D d x h)
      split at hc
      · exact hstep c hc
      · exact ih _ hstep c hc

/-- The selection loop preserves freedom from duplicates: the
accumulator stays disjoint from the untouched buckets, and each step
appends a duplicate-free prefix of a fresh bucket. -/
theorem selectLoop_nodup {o : Oracles}
    (hsort : ∀ l, (o.sortJitter l).Perm l) (count : ℕ)
    (G : List (ℕ × List String)) (D : ℕ)
    (hG : (G.map Prod.snd).flatten.Nodup) :
    ∀ (ds : List ℕ), ds.Nodup → ∀ (acc : List String), acc.Nodup →
      (∀ d ∈ ds, ∀ c ∈ acc, c ∉ bucketOf G d) →
      (selectLoop o count G D ds acc).Nodup := by
  intro ds
  induction ds with
  | nil =>
      intro _ acc hacc _
      rw [selectLoop]
      exact hacc
  | cons d ds ih =>
      intro hds acc hacc hdisj
      rw [selectLoop]
      have htakeN : (takeFromBucket o count G D d).Nodup :=
        List.Nodup.sublist (List.take_sublist _ _)
          ((hsort (bucketOf G d)).nodup_iff.mpr (bucketOf_nodup hG d))
      have hacc2 : (acc ++ takeFromBucket o count G D d).Nodup := by
        apply List.Nodup.append hacc htakeN
        intro x hx hx'
        exact hdisj d (List.mem_cons_self _ _) x hx
          (takeFromBucket_subset hsort count G D d x hx')
      split
      · exact hacc2
      · apply ih (List.nodup_cons.mp hds).2 _ hacc2
        intro d' hd' x hx
        rcases List.mem_append.mp hx with h | h
        · exact hdisj d' (List.mem_cons_of_mem _ hd') x h
        · have hdd : d ≠ d' := fun he => (List.nodup_cons.mp hds).1 (he ▸ hd')
          exact bucketOf_disjoint G hG hdd
            (takeFromBucket_subset hsort count G D d x h)

/-- Everything `selectFromAvailable` returns comes from the available
list. -/
theorem selectFromAvailable_subset {o : Oracles}
    (hsort : ∀ l, (o.sortJitter l).Perm l) (count : ℕ)
    (lvl : LearningLevel) (available : List String) :
    ∀ c ∈ selectFromAvailable o count lvl available, c ∈ available := by
  intro c hc
  unfold selectFromAvailable at hc
  dsimp only at hc
  have hsel : ∀ (D : ℕ) (ds : List ℕ),
      ∀ x ∈ selectLoop o count (groupByDifficulty o available) D ds [], x ∈ available := by
    intro D ds
    apply selectLoop_mem hsort
    · intro d x hx
      exact (groupByDifficulty_flatten o available).mem_iff.mp (bucketOf_mem_flatten hx)
    · intro x hx
      simp at hx
  have hc' := List.mem_of_mem_take hc
  split at hc'
  · rcases List.mem_append.mp hc' with h | h
    · exact hsel _ _ c h
    · have h1 := List.mem_of_mem_take h
      have h2 := (List.perm_insertionSort _ _).mem_iff.mp h1
      exact (List.mem_filter.mp h2).1
  · exact hsel _ _ c hc'

/-- Assembling the final batch from a duplicate-free selection and the
frequency-sorted leftovers yields exactly `min count availableCount`
characters. -/
theorem select_assemble_length {available sel : List String} {count : ℕ}
    (lvl : LearningLevel) (hnd : available.Nodup) (hselN : sel.Nodup)
    (hselSub : ∀ x ∈ sel, x ∈ available) :
    ((if sel.length < count then
        sel ++ ((available.filter (fun c => !(sel.contains c))).insertionSort
          (fun a b => levelIndexOf lvl a ≤ levelIndexOf lvl b)).take (count - sel.length)
      else sel).take count).length = min count available.length := by
  have hselLe : sel.length ≤ available.length := by
    have h1 := List.toFinset_card_of_nodup hselN
    have h2 := List.toFinset_card_of_nodup hnd
    have h3 : sel.toFinset ⊆ available.toFinset := by
      intro x hx
      rw [List.mem_toFinset] at hx ⊢
      exact hselSub x hx
    have := Finset.card_le_card h3
    omega
  split
  · rename_i hbr
    rw [List.length_take, List.length_append, List.length_take,
      (List.perm_insertionSort _ _).length_eq, filter_not_mem_length hnd hselN hselSub]
    omega
  · rename_i hbr
    rw [List.length_take]
    omega

/-- `selectFromAvailable` on a duplicate-free available list returns
exactly `min count availableCount` characters. -/
theorem selectFromAvailable_length {o : Oracles}
    (hsort : ∀ l, (o.sortJitter l).Perm l) (count : ℕ)
    (lvl : LearningLevel) (available : List String) (hnd : available.Nodup) :
    (selectFromAvailable o count lvl available).length = min count available.length := by
  have hGflat := groupByDifficulty_flatten o available
  have hGnodup : ((groupByDifficulty o available).map Prod.snd).flatten.Nodup :=
    hGflat.nodup_iff.mpr hnd
  have hds : (((groupByDifficulty o available).map Prod.fst).insertionSort (· ≤ ·)).Nodup :=
    (List.perm_insertionSort _ _).nodup_iff.mpr (groupByDifficulty_keys_nodup o available)
  have hselN : ∀ D : ℕ, (selectLoop o count (groupByDifficulty o available) D
      (((groupByDifficulty o available).map Prod.fst).insertionSort (· ≤ ·)) []).Nodup := by
    intro D
    apply selectLoop_nodup hsort count _ _ hGnodup _ hds [] List.nodup_nil
    intro d _ x hx
    simp at hx
  have hselSub : ∀ (D : ℕ), ∀ x ∈ selectLoop o count (groupByDifficulty o available) D
      (((groupByDifficulty o available).map Prod.fst).insertionSort (· ≤ ·)) [],
      x ∈ available := by
    intro D
    apply selectLoop_mem hsort
    · intro d x hx
      exact hGflat.mem_iff.mp (bucketOf_mem_flatten hx)
    · intro x hx
      simp at hx
  unfold selectFromAvailable
  dsimp only
  exact select_assemble_length lvl hnd (hselN _) (hselSub _)

/-- One unfolding step of the fueled selector. -/
theorem getNext_succ (o : Oracles) (fuel : ℕ) (cfg : ProgressionConfig) (count : ℕ) :
    getNextCharactersForPractice o (fuel + 1) cfg count =
      (let available := (getCurrentLevel cfg).characters.filter
          (fun c => !(cfg.completedCharacters.contains c))
       if available.isEmpty then
         if canAdvanceLevel cfg then
           getNextCharactersForPractice o fuel (advanceLevel cfg).1 10
         else some ((o.shuffle (getCurrentLevel cfg).characters).take 10, cfg)
       else some (selectFromAvailable o count (getCurrentLevel cfg) available, cfg)) := rfl

/-- C5 (amended): whenever at least one un-completed character remains
in the current level, `getNextCharactersForPractice(10)` returns without
recursing, every returned character belongs to the level and is not in
`completedCharacters`, and — provided the un-completed entries are
pairwise distinct — the batch has exactly `min 10 availableCount`
characters.  (With zero un-completed characters the source instead
advances the level or returns a review batch, so the `min` clause fails
there; see the counterexample.) -/
theorem progression_selector_spec (o : Oracles)
    (hsort : ∀ l, (o.sortJitter l).Perm l)
    (cfg : ProgressionConfig) (fuel : ℕ)
    (hne : (getCurrentLevel cfg).characters.filter
        (fun c => !(cfg.completedCharacters.contains c)) ≠ []) :
    ∃ res, getNextCharactersForPractice o (fuel + 1) cfg 10 = some (res, cfg) ∧
      (∀ c ∈ res, c ∈ (getCurrentLevel cfg).characters ∧
        c ∉ cfg.completedCharacters) ∧
      (((getCurrentLevel cfg).characters.filter
          (fun c => !(cfg.completedCharacters.contains c))).Nodup →
        res.length = min 10 ((getCurrentLevel cfg).characters.filter
            (fun c => !(cfg.completedCharacters.contains c))).length) := by
  have hcond : ¬(((getCurrentLevel cfg).characters.filter
      (fun c => !(cfg.completedCharacters.contains c))).isEmpty = true) := by
    simpa using hne
  refine ⟨selectFromAvailable o 10 (getCurrentLevel cfg)
      ((getCurrentLevel cfg).characters.filter
        (fun c => !(cfg.completedCharacters.contains c))), ?_, ?_, ?_⟩
  · rw [getNext_succ]
    dsimp only
    rw [if_neg hcond]
  · intro c hc
    have h := selectFromAvailable_subset hsort 10 (getCurrentLevel cfg) _ c hc
    rcases List.mem_filter.mp h with ⟨h1, h2⟩
    refine ⟨h1, fun hmem => ?_⟩
    rw [contains_iff.mpr hmem] at h2
    simp at h2
  · intro hnd
    exact selectFromAvailable_length hsort 10 (getCurrentLevel cfg) _ hnd

/-- Closed witness for C5's amended theorem: a fresh default state (level
1, nothing completed) gets a full batch of 10 characters from level 1. -/
theorem progression_selector_spec_witness :
    ∃ res, getNextCharactersForPractice idOracles 1 defaultConfig 10 =
        some (res, defaultConfig) ∧
      (∀ c ∈ res, c ∈ (getCurrentLevel defaultConfig).characters ∧
        c ∉ defaultConfig.completedCharacters) ∧
      (((getCurrentLevel defaultConfig).characters.filter
          (fun c => !(defaultConfig.completedCharacters.contains c))).Nodup →
        res.length = min 10 ((getCurrentLevel defaultConfig).characters.filter
            (fun c => !(defaultConfig.completedCharacters.contains c))).length) :=
  progression_selector_spec idOracles (fun l => List.Perm.refl l) defaultConfig 0
    (by decide)

/-- The progression state after the learner completes all ten level-1
characters, with the constructor's default thresholds. -/
def c5AllLevel1Done : ProgressionConfig :=
  ⟨1, FREQUENCY_ORDERED_CHARACTERS.take 10, 85, 80⟩

/-- The level-3 progression state in which exactly the entries
`一, 我, 好, 飲, 都, 聽, 都` (the duplicated list entry `都` twice)
remain un-completed, with the constructor's default thresholds. -/
def c5DupState : ProgressionConfig :=
  ⟨3, (FREQUENCY_ORDERED_CHARACTERS.take 100).filter
      (fun c => !(["一", "我", "好", "飲", "都", "聽"].contains c)), 85, 80⟩

/-- C5 counterexample, two concrete failures of the claimed
`min(10, availableCount)` batch size.  First, with every level-1
character completed (`availableCount = 0 < 10`) the claim demands
`min(10, 0) = 0` characters, but the function advances to level 2 and
returns 10.  Second, at level 3 with seven un-completed entries
including the duplicated entry `都` twice (`availableCount = 7 < 10`),
the per-difficulty loop takes one copy of `都` and the fill phase's
by-value filter then discards the other, so only 6 characters are
returned where the claim demands `min(10, 7) = 7`. -/
theorem progression_selector_counterexample :
    (∃ res cfg', getNextCharactersForPractice idOracles 2 c5AllLevel1Done 10 =
        some (res, cfg') ∧
      res.length = 10 ∧
      ((getCurrentLevel c5AllLevel1Done).characters.filter
          (fun c => !(c5AllLevel1Done.completedCharacters.contains c))).length = 0 ∧
      (10 : ℕ) ≠ min 10 ((getCurrentLevel c5AllLevel1Done).characters.filter
          (fun c => !(c5AllLevel1Done.completedCharacters.contains c))).length) ∧
    ((getNextCharactersForPractice idOracles 1 c5DupState 10).map
        (fun r => r.1.length) = some 6 ∧
      ((getCurrentLevel c5DupState).characters.filter
          (fun c => !(c5DupState.completedCharacters.contains c))).length = 7 ∧
      (6 : ℕ) ≠ min 10 ((getCurrentLevel c5DupState).characters.filter
          (fun c => !(c5DupState.completedCharacters.contains c))).length) := by
  refine ⟨?_, by decide, by decide, ?_⟩
  have hsort : ∀ l, (idOracles.sortJitter l).Perm l := fun l => List.Perm.refl l
  have hempty : ((getCurrentLevel c5AllLevel1Done).characters.filter
      (fun c => !(c5AllLevel1Done.completedCharacters.contains c))).isEmpty = true := by
    decide
  have hm : ((getCurrentLevel c5AllLevel1Done).characters.filter
      (fun c => c5AllLevel1Done.completedCharacters.contains c)).length = 10 := by decide
  have hcan : canAdvanceLevel c5AllLevel1Done := by
    unfold canAdvanceLevel
    rw [hm]
    show (80 : ℚ) ≤ ((10 : ℕ) : ℚ) / ((10 : ℕ) : ℚ) * 100
    norm_num
  have hadv : (advanceLevel c5AllLevel1Done).1 =
      (⟨2, FREQUENCY_ORDERED_CHARACTERS.take 10, 85, 80⟩ : ProgressionConfig) := by
    unfold advanceLevel
    rw [if_pos ⟨hcan, by decide⟩]
    rfl
  have hne2 : ((getCurrentLevel
      (⟨2, FREQUENCY_ORDERED_CHARACTERS.take 10, 85, 80⟩ : ProgressionConfig)).characters.filter
      (fun c => !((FREQUENCY_ORDERED_CHARACTERS.take 10).contains c))).isEmpty = false := by
    decide
  have hcond2 : ¬(((getCurrentLevel
      (⟨2, FREQUENCY_ORDERED_CHARACTERS.take 10, 85, 80⟩ : ProgressionConfig)).characters.filter
      (fun c => !((FREQUENCY_ORDERED_CHARACTERS.take 10).contains c))).isEmpty = true) := by
    rw [hne2]
    simp
  refine ⟨selectFromAvailable idOracles 10
      (getCurrentLevel (⟨2, FREQUENCY_ORDERED_CHARACTERS.take 10, 85, 80⟩ : ProgressionConfig))
      ((getCurrentLevel
        (⟨2, FREQUENCY_ORDERED_CHARACTERS.take 10, 85, 80⟩ : ProgressionConfig)).characters.filter
        (fun c => !((FREQUENCY_ORDERED_CHARACTERS.take 10).contains c))),
    ⟨2, FREQUENCY_ORDERED_CHARACTERS.take 10, 85, 80⟩, ?_, ?_, ?_, ?_⟩
  · rw [show (2 : ℕ) = 1 + 1 from rfl, getNext_succ]
    dsimp only
    rw [if_pos hempty, if_pos hcan, hadv,
      show (1 : ℕ) = 0 + 1 from rfl, getNext_succ]
    dsimp only
    rw [if_neg hcond2]
  · rw [selectFromAvailable_length hsort 10 _ _ (by decide)]
    rw [show ((getCurrentLevel
        (⟨2, FREQUENCY_ORDERED_CHARACTERS.take 10, 85, 80⟩ : ProgressionConfig)).characters.filter
        (fun c => !((FREQUENCY_ORDERED_CHARACTERS.take 10).contains c))).length = 40 from by
      decide]
    decide
  · decide
  · rw [show ((getCurrentLevel c5AllLevel1Done).characters.filter
        (fun c => !(c5AllLevel1Done.completedCharacters.contains c))).length = 0 from by
      decide]
    decide
  rw [show ((getCurrentLevel c5DupState).characters.filter
      (fun c => !(c5DupState.completedCharacters.contains c))).length = 7 from by decide]
  decide

end Smoketest
